import Mathlib

/-!
Verification of the Microservices-mastery order platform: a shallow
embedding of the Order Service (`services/Order service/server.js`, first
half of the file) and the API Gateway (second half) together with theorems
settling the specification claims C1-C10.

Conventions of the embedding:
* SQL `DECIMAL(10,2)` prices and totals are exact fixed-point decimals;
  they are modelled as integers (amounts in minor units), so all money
  arithmetic in the model is exact.
* The `orders` / `order_items` tables are lists of rows; `SERIAL` ids come
  from a `nextOrderId` counter.
* The external Product service (consumed through axios by `createOrder`)
  is a parameter `lookup : String → Option Product`; `none` folds together
  every non-success outcome, as the spec's Product Lookup Client contract
  states.
* The PostgreSQL client's transaction lifecycle (`BEGIN` / `COMMIT` /
  `ROLLBACK` / `release`) is recorded as an explicit event trace.
* Express middleware/route registration order is modelled by trying the
  gateway's layers in exactly the order they are registered in the source.
-/

/-- Order status values are stored as `VARCHAR(50)` strings in the code;
`validStatuses` is the literal list from the PATCH handler. -/
def validStatuses : List String :=
  ["pending", "confirmed", "processing", "shipped", "delivered", "cancelled"]

/-- A row of the `orders` table. -/
structure Order where
  id : Nat
  user_id : Nat
  status : String
  total_amount : Int
  shipping_address : String
  created_at : Nat
deriving DecidableEq, Repr

/-- A row of the `order_items` table (the `SERIAL` id column is omitted;
rows are identified by position). -/
structure OrderItem where
  order_id : Nat
  product_id : String
  product_name : String
  quantity : Int
  price : Int
deriving DecidableEq, Repr

/-- The Order Service database: both tables plus the `SERIAL` counter
feeding `orders.id`. -/
structure DB where
  orders : List Order
  order_items : List OrderItem
  nextOrderId : Nat
deriving DecidableEq, Repr

/-- An item of the request body of `POST /orders`. -/
structure ReqItem where
  productId : String
  quantity : Int
deriving DecidableEq, Repr

/-- The body of a successful `GET <productService>/products/:id` response,
restricted to the fields `createOrder` reads. -/
structure Product where
  name : String
  price : Int
deriving DecidableEq, Repr

/-- An element of the `validatedItems` array built by the validation loop
of `createOrder`. -/
structure VItem where
  productId : String
  productName : String
  quantity : Int
  price : Int
deriving DecidableEq, Repr

/-- Lifecycle events of the pooled PostgreSQL client used by
`POST /orders`. -/
inductive TxEvent where
  | begin
  | commit
  | rollback
  | release
deriving DecidableEq, Repr

/-- Outcome of the `POST /orders` handler. -/
inductive CreateOutcome where
  | created (order : Order) (items : List OrderItem)
  | emptyOrder
  | invalidProduct (productId : String)
  | serverError
deriving DecidableEq, Repr

/-- HTTP status the handler sends for each outcome. -/
def CreateOutcome.httpStatus : CreateOutcome → Nat
  | .created _ _ => 201
  | .emptyOrder => 400
  | .invalidProduct _ => 400
  | .serverError => 500

/-- The `error` field of the JSON body for failure outcomes. -/
def CreateOutcome.errorMsg : CreateOutcome → Option String
  | .created _ _ => none
  | .emptyOrder => some "Order items are required"
  | .invalidProduct pid => some ("Invalid product: " ++ pid)
  | .serverError => some "Internal server error"

/-- The created order's total, when the outcome is a creation. -/
def CreateOutcome.totalOf : CreateOutcome → Option Int
  | .created o _ => some o.total_amount
  | _ => none

/-- Result of one `POST /orders` request: response outcome, database after
the request, and the transaction-event trace of the pooled client. -/
structure CreateResult where
  outcome : CreateOutcome
  db : DB
  tx : List TxEvent
deriving DecidableEq, Repr

/-- The product-validation loop of `createOrder` (`for (const item of
items)`): sequentially looks each item up; the first failing lookup wins
and its `productId` is reported; on success returns the accumulated
`totalAmount` and the `validatedItems` array in input order. -/
def validateItems (lookup : String → Option Product) :
    List ReqItem → Except String (Int × List VItem)
  | [] => .ok (0, [])
  | item :: rest =>
    match lookup item.productId with
    | none => .error item.productId
    | some p =>
      match validateItems lookup rest with
      | .error e => .error e
      | .ok (t, vs) =>
          .ok (p.price * item.quantity + t,
               ⟨item.productId, p.name, item.quantity, p.price⟩ :: vs)

/-- The `POST /orders` handler. Mirrors the source control flow: the
client is checked out and `BEGIN` issued first; the empty-items check and
the validation loop `return` early (the `finally` block then releases the
client without `COMMIT` or `ROLLBACK`); after validation the order row and
one item row per validated item are inserted and committed; a persistence
failure (`persistOk = false`) raises, is caught, rolled back and surfaced
as a 500. `now` is the insertion timestamp. -/
def createOrder (lookup : String → Option Product) (persistOk : Bool)
    (db : DB) (userId : Nat) (items : List ReqItem)
    (shippingAddress : String) (now : Nat) : CreateResult :=
  if items.isEmpty then
    ⟨.emptyOrder, db, [.begin, .release]⟩
  else
    match validateItems lookup items with
    | .error pid => ⟨.invalidProduct pid, db, [.begin, .release]⟩
    | .ok (totalAmount, validatedItems) =>
      if persistOk then
        let oid := db.nextOrderId
        let order : Order :=
          ⟨oid, userId, "pending", totalAmount, shippingAddress, now⟩
        let rows : List OrderItem := validatedItems.map
          (fun v => ⟨oid, v.productId, v.productName, v.quantity, v.price⟩)
        ⟨.created order rows,
         ⟨db.orders ++ [order], db.order_items ++ rows, oid + 1⟩,
         [.begin, .commit, .release]⟩
      else
        ⟨.serverError, db, [.begin, .rollback, .release]⟩

/-- The sum `Σ pᵢ·qᵢ` over the request items, with `pᵢ` the price the
Product Lookup Client reports for item `i` at validation time. -/
def snapshotTotal (lookup : String → Option Product)
    (items : List ReqItem) : Int :=
  (items.map (fun it =>
    ((lookup it.productId).getD ⟨"", 0⟩).price * it.quantity)).sum

/-- An order together with its item rows, as assembled by `getOrderById`
and the list endpoint. -/
structure OrderWithItems where
  order : Order
  items : List OrderItem
deriving DecidableEq, Repr

/-- The helper `getOrderById(orderId, userId = null)`: `SELECT * FROM
orders WHERE id = $1` with `AND user_id = $2` appended exactly when a
`userId` is supplied, then the item rows of the found order. -/
def getOrderById (db : DB) (orderId : Nat) (userId : Option Nat) :
    Option OrderWithItems :=
  match db.orders.find? (fun o =>
      o.id == orderId &&
      (match userId with | none => true | some u => o.user_id == u)) with
  | none => none
  | some o =>
      some ⟨o, db.order_items.filter (fun it => it.order_id == o.id)⟩

/-- Response of `GET /orders/:id`. -/
inductive GetResponse where
  | ok (order : OrderWithItems)
  | notFound (msg : String)
deriving DecidableEq, Repr

/-- The `GET /orders/:id` handler: fetches via `getOrderById(orderId,
userId)` and answers 404 `Order not found` when nothing matches. -/
def getOrderHandler (db : DB) (userId orderId : Nat) : GetResponse :=
  match getOrderById db orderId (some userId) with
  | none => .notFound "Order not found"
  | some ow => .ok ow

/-- Insert an order into a list kept in descending `created_at` order. -/
def insertDesc (o : Order) : List Order → List Order
  | [] => [o]
  | x :: xs =>
      if x.created_at ≤ o.created_at then o :: x :: xs
      else x :: insertDesc o xs

/-- The sort `ORDER BY created_at DESC`. -/
def sortDesc : List Order → List Order
  | [] => []
  | x :: xs => insertDesc x (sortDesc xs)

/-- The `pagination` object of the `GET /orders` response body. -/
structure Pagination where
  page : Nat
  limit : Nat
  total : Nat
deriving DecidableEq, Repr

/-- The `GET /orders` handler: rows of the caller, optionally filtered by
status, newest first, `LIMIT limit OFFSET (page-1)*limit`, each row joined
with its items; `pagination.total` is `result.rows.length`. -/
def listOrders (db : DB) (userId : Nat) (page limit : Nat)
    (status : Option String) : List OrderWithItems × Pagination :=
  let rows := db.orders.filter (fun o =>
    o.user_id == userId &&
    (match status with | none => true | some s => o.status == s))
  let pageRows := ((sortDesc rows).drop ((page - 1) * limit)).take limit
  (pageRows.map (fun o =>
      ⟨o, db.order_items.filter (fun it => it.order_id == o.id)⟩),
   ⟨page, limit, pageRows.length⟩)

/-- Response of `PATCH /orders/:id/status`. -/
inductive UpdateOutcome where
  | invalidStatus
  | notFound
  | updated (order : Option OrderWithItems)
deriving DecidableEq, Repr

/-- Row predicate of the conditional `UPDATE ... WHERE id = $2 AND
user_id = $3`. -/
def ownedRow (orderId userId : Nat) (o : Order) : Bool :=
  o.id == orderId && o.user_id == userId

/-- The `PATCH /orders/:id/status` handler: 400 `Invalid status` unless
the new status is in `validStatuses`; otherwise the conditional update
runs, 404 when it touched zero rows, else the order is re-fetched and
returned. -/
def updateStatusHandler (db : DB) (userId orderId : Nat)
    (status : String) : UpdateOutcome × DB :=
  if !(validStatuses.contains status) then
    (.invalidStatus, db)
  else
    let db' : DB :=
      ⟨db.orders.map (fun o =>
          if ownedRow orderId userId o then { o with status := status }
          else o),
       db.order_items, db.nextOrderId⟩
    if (db.orders.filter (ownedRow orderId userId)).isEmpty then
      (.notFound, db)
    else
      (.updated (getOrderById db' orderId (some userId)), db')

/-- Response of `DELETE /orders/:id`. -/
inductive CancelOutcome where
  | success
  | notFound
deriving DecidableEq, Repr

/-- HTTP status and error body of each cancel outcome. -/
def CancelOutcome.http : CancelOutcome → Nat × Option String
  | .success => (200, none)
  | .notFound => (404, some "Order not found or cannot be cancelled")

/-- Row predicate of the cancel update: `WHERE id = $2 AND user_id = $3
AND status IN ('pending', 'confirmed')`. -/
def cancellableRow (orderId userId : Nat) (o : Order) : Bool :=
  o.id == orderId && o.user_id == userId &&
  (o.status == "pending" || o.status == "confirmed")

/-- The `DELETE /orders/:id` handler: one conditional `UPDATE` setting
`status = 'cancelled'`; zero touched rows (missing id, foreign owner, or
non-cancellable state alike) yield the single 404 response. -/
def cancelHandler (db : DB) (userId orderId : Nat) :
    CancelOutcome × DB :=
  let db' : DB :=
    ⟨db.orders.map (fun o =>
        if cancellableRow orderId userId o then { o with status := "cancelled" }
        else o),
     db.order_items, db.nextOrderId⟩
  if (db.orders.filter (cancellableRow orderId userId)).isEmpty then
    (.notFound, db)
  else
    (.success, db')

/-! ## API Gateway -/

/-- The window length `RATE_LIMIT_WINDOW`, in milliseconds. -/
def RATE_LIMIT_WINDOW : Nat := 60000

/-- The admission cap `RATE_LIMIT_MAX_REQUESTS` per window. -/
def RATE_LIMIT_MAX_REQUESTS : Nat := 100

/-- One entry of the in-memory `rateLimit` map. -/
structure Bucket where
  count : Nat
  resetTime : Nat
deriving DecidableEq, Repr

/-- The bucket-update phase of the rate-limit middleware: first request
for the key, or `now > resetTime`, resets to `{count: 1, resetTime:
now + RATE_LIMIT_WINDOW}`; otherwise the count increments. -/
def rlStep (b : Option Bucket) (now : Nat) : Bucket :=
  match b with
  | none => ⟨1, now + RATE_LIMIT_WINDOW⟩
  | some bk =>
      if bk.resetTime < now then ⟨1, now + RATE_LIMIT_WINDOW⟩
      else ⟨bk.count + 1, bk.resetTime⟩

/-- Admission decision of the rate-limit middleware. -/
inductive RLDecision where
  | allow
  | deny (retryAfter : Nat)
deriving DecidableEq, Repr

/-- The admission phase, applied to the updated bucket: deny when the
count exceeds the max, with `retryAfter = Math.ceil((resetTime - now) /
1000)` seconds. -/
def rlDecide (bk : Bucket) (now : Nat) : RLDecision :=
  if RATE_LIMIT_MAX_REQUESTS < bk.count then
    .deny ((bk.resetTime - now + 999) / 1000)
  else .allow

/-- One pass of the middleware body for one key's bucket. -/
def rlProcess (b : Option Bucket) (now : Nat) : Bucket × RLDecision :=
  let b' := rlStep b now
  (b', rlDecide b' now)

/-- A sequence of requests from one client at the given timestamps,
threaded through the middleware; yields the final bucket and the decision
for each request. -/
def runRL : Option Bucket → List Nat → Option Bucket × List RLDecision
  | b, [] => (b, [])
  | b, t :: ts =>
    let p := rlProcess b t
    let r := runRL (some p.1) ts
    (r.1, p.2 :: r.2)

/-- The gateway's `rateLimit` map, keyed by client address. -/
def RLState := List (String × Bucket)

instance : DecidableEq RLState := by
  unfold RLState; infer_instance

/-- Map lookup in the `rateLimit` object. -/
def rlLookup (st : RLState) (ip : String) : Option Bucket :=
  (st.find? (fun p => p.1 == ip)).map Prod.snd

/-- Map store in the `rateLimit` object. -/
def rlStore : RLState → String → Bucket → RLState
  | [], ip, b => [(ip, b)]
  | (k, v) :: rest, ip, b =>
      if k == ip then (ip, b) :: rest else (k, v) :: rlStore rest ip b

/-- Whether `p` is a leading piece of `s` (character-wise, as Express
path patterns like `'/api/users*'` match). -/
def strHasPre (p s : String) : Bool :=
  p.data.isPrefixOf s.data

/-- Drop the first `n` characters of `s` — the effect of
`req.path.replace('/api/<seg>', '')` once the pattern matched. -/
def strTail (s : String) (n : Nat) : String :=
  String.mk (s.data.drop n)

/-- String concatenation on the character level (backend-local path =
root ++ remainder). -/
def strCat (a b : String) : String :=
  String.mk (a.data ++ b.data)

/-- An inbound gateway request. `auth` abstracts the `Authorization`
header: `none` = absent, `some false` = present but failing `jwt.verify`,
`some true` = valid. -/
structure GwRequest where
  method : String
  path : String
  ip : String
  auth : Option Bool
deriving DecidableEq, Repr

/-- What the gateway does with a request. `proxied backend path` means the
request was dispatched to that backend service at the rewritten path. -/
inductive GwOutcome where
  | healthOk
  | metricsOk
  | proxied (backend : String) (path : String)
  | authMissing
  | authInvalid
  | tooMany (retryAfter : Nat)
  | routeMissing
deriving DecidableEq, Repr

/-- Express dispatch of the gateway app, trying the layers in their
registration order in the source: `GET /health`, `GET /metrics`, the four
catch-all proxy routes (`/api/orders*` behind `authenticateToken`), then —
only for requests no earlier layer handled — the rate-limit middleware,
and finally the `*` 404 handler. Path rewriting follows
`req.path.replace('/api/<seg>', '')` with the backend-local root
prepended. -/
def gatewayHandle (st : RLState) (now : Nat) (r : GwRequest) :
    GwOutcome × RLState :=
  if r.method == "GET" && r.path == "/health" then (.healthOk, st)
  else if r.method == "GET" && r.path == "/metrics" then (.metricsOk, st)
  else if strHasPre "/api/users" r.path then
    (.proxied "user" (strCat "/users" (strTail r.path 10)), st)
  else if strHasPre "/api/auth" r.path then
    (.proxied "user" (strCat "/auth" (strTail r.path 9)), st)
  else if strHasPre "/api/products" r.path then
    (.proxied "product" (strCat "/products" (strTail r.path 13)), st)
  else if strHasPre "/api/orders" r.path then
    match r.auth with
    | none => (.authMissing, st)
    | some false => (.authInvalid, st)
    | some true => (.proxied "order" (strCat "/orders" (strTail r.path 11)), st)
  else
    let p := rlProcess (rlLookup st r.ip) now
    let st' := rlStore st r.ip p.1
    match p.2 with
    | .deny ra => (.tooMany ra, st')
    | .allow => (.routeMissing, st')

/-! ## Concrete fixtures used by witnesses and counterexamples -/

/-- A Product service catalog holding one product, `p1`, priced 50.00
(5000 minor units), as in the spec's worked example. -/
def lookup0 : String → Option Product :=
  fun s => if s = "p1" then some ⟨"Widget", 5000⟩ else none

/-- A Product service for which every lookup fails. -/
def lookupNone : String → Option Product := fun _ => none

/-- An empty order database. -/
def db0 : DB := ⟨[], [], 1⟩

/-- A database with a single pending order, id 1, owned by user 7. -/
def db1 : DB := ⟨[⟨1, 7, "pending", 5000, "a", 0⟩], [], 2⟩

/-- Two orders owned by user 7, created at instants 0 and 1. -/
def db2 : DB :=
  ⟨[⟨1, 7, "pending", 5000, "a", 0⟩, ⟨2, 7, "pending", 5000, "a", 1⟩], [], 3⟩

/-- A delivered order, id 1, owned by user 7. -/
def dbDel : DB := ⟨[⟨1, 7, "delivered", 5000, "a", 0⟩], [], 2⟩

/-- A shipped order, id 1, owned by user 7. -/
def dbShip : DB := ⟨[⟨1, 7, "shipped", 5000, "a", 0⟩], [], 2⟩

/-- A confirmed order, id 1, owned by user 7. -/
def dbConf : DB := ⟨[⟨1, 7, "confirmed", 5000, "a", 0⟩], [], 2⟩

/-! ## Theorems -/

/-- C1: the claim says the Rate Limiter's admission check runs before any
proxied dispatch, so a denied request is never forwarded. In the source
the rate-limit middleware is registered with `app.use` only *after* the
four catch-all proxy routes, so Express never reaches it for a request a
proxy route matches: a `GET /api/users/1` is dispatched to the user
service for every rate-limit state — here even for a client whose bucket
already stands at 150 requests inside the current window — and the
`rateLimit` map is not even consulted or updated. -/
theorem gateway_dispatch_skips_rate_limiter :
    (∀ (st : RLState) (now : Nat) (ip : String) (auth : Option Bool),
      gatewayHandle st now ⟨"GET", "/api/users/1", ip, auth⟩
        = (.proxied "user" "/users/1", st)) ∧
    gatewayHandle [("1.2.3.4", ⟨150, 100000⟩)] 50
        ⟨"GET", "/api/users/1", "1.2.3.4", none⟩
      = (.proxied "user" "/users/1", [("1.2.3.4", ⟨150, 100000⟩)]) := by
  refine ⟨fun st now ip auth => ?_, by decide⟩
  rfl

/-- C4 counterexample: the claim says the transaction is opened only after
all items validate and that every exit path commits or rolls back. On the
explicit input where the single item's lookup fails, the handler has
already issued `BEGIN` (the trace contains it although validation failed)
and returns 400 with the client released and the transaction neither
committed nor rolled back. -/
theorem create_order_tx_claim_counterexample :
    TxEvent.begin ∈ (createOrder lookupNone true db0 1 [⟨"x", 1⟩] "a" 0).tx ∧
    TxEvent.commit ∉ (createOrder lookupNone true db0 1 [⟨"x", 1⟩] "a" 0).tx ∧
    TxEvent.rollback ∉ (createOrder lookupNone true db0 1 [⟨"x", 1⟩] "a" 0).tx ∧
    (createOrder lookupNone true db0 1 [⟨"x", 1⟩] "a" 0).outcome
      = .invalidProduct "x" := by decide

/-- C9 counterexample: the claim says every persisted OrderItem has a
positive quantity. `createOrder` never validates quantities: on the
explicit input requesting product `p1` with quantity 0 the order is
created (201) and an item row with quantity 0 is persisted. -/
theorem item_quantity_positive_counterexample :
    ¬ (∀ it ∈ (createOrder lookup0 true db0 7 [⟨"p1", 0⟩] "a" 5).db.order_items,
        0 < it.quantity) ∧
    (createOrder lookup0 true db0 7 [⟨"p1", 0⟩] "a" 5).outcome.httpStatus
      = 201 := by decide

/-- Splitting a request sequence splits the decision list. -/
theorem runRL_append (b : Option Bucket) (xs ys : List Nat) :
    runRL b (xs ++ ys)
      = ((runRL (runRL b xs).1 ys).1,
         (runRL b xs).2 ++ (runRL (runRL b xs).1 ys).2) := by
  induction xs generalizing b with
  | nil => simp [runRL]
  | cons x xs ih => simp [runRL, ih]

/-- While the window is live and the count stays within the maximum,
every request is admitted and the count advances by one per request. -/
theorem runRL_allows (R : Nat) (ts : List Nat) :
    ∀ c : Nat, (∀ t ∈ ts, t ≤ R) →
    c + ts.length ≤ RATE_LIMIT_MAX_REQUESTS →
    runRL (some ⟨c, R⟩) ts
      = (some ⟨c + ts.length, R⟩, List.replicate ts.length .allow) := by
  induction ts with
  | nil => intro c _ _; simp [runRL]
  | cons t ts ih =>
    intro c hle hc
    have ht : ¬ R < t := not_lt.mpr (hle t (by simp))
    have hstep : rlProcess (some ⟨c, R⟩) t = (⟨c + 1, R⟩, .allow) := by
      have hcount : ¬ RATE_LIMIT_MAX_REQUESTS < c + 1 := by
        simp only [List.length_cons] at hc; omega
      simp [rlProcess, rlStep, rlDecide, ht, hcount]
    have hrec := ih (c + 1) (fun u hu => hle u (by simp [hu]))
      (by simp only [List.length_cons] at hc; omega)
    simp only [runRL, hstep, hrec, List.length_cons, List.replicate_succ]
    have : c + 1 + ts.length = c + (ts.length + 1) := by omega
    rw [this]

/-- C5: the rate-limit middleware resets a key's bucket to count 1 and
resetTime now + 60s on the first request and once `now > resetTime`, and
otherwise increments the count; for 101 requests of one client inside a
single 60-second window the first 100 (in particular the 100th) are
admitted and the 101st is denied with `retryAfter` equal to the remaining
seconds until reset rounded up, which is at most 60. -/
theorem rate_limiter_window_and_limit :
    (∀ now : Nat, rlStep none now = ⟨1, now + RATE_LIMIT_WINDOW⟩) ∧
    (∀ (b : Bucket) (now : Nat), b.resetTime < now →
      rlStep (some b) now = ⟨1, now + RATE_LIMIT_WINDOW⟩) ∧
    (∀ (b : Bucket) (now : Nat), ¬ b.resetTime < now →
      rlStep (some b) now = ⟨b.count + 1, b.resetTime⟩) ∧
    (∀ (t0 tl : Nat) (ts : List Nat),
      ts.length = 99 →
      (∀ t ∈ ts, t ≤ t0 + RATE_LIMIT_WINDOW) →
      t0 ≤ tl → tl ≤ t0 + RATE_LIMIT_WINDOW →
      (runRL none (t0 :: (ts ++ [tl]))).2
        = List.replicate 100 .allow
            ++ [.deny ((t0 + RATE_LIMIT_WINDOW - tl + 999) / 1000)] ∧
      (t0 + RATE_LIMIT_WINDOW - tl + 999) / 1000 ≤ 60) := by
  refine ⟨fun now => rfl, fun b now h => ?_, fun b now h => ?_,
    fun t0 tl ts hlen hin h0 h60 => ?_⟩
  · simp [rlStep, h]
  · simp [rlStep, h]
  · have hfirst : rlProcess none t0
        = (⟨1, t0 + RATE_LIMIT_WINDOW⟩, .allow) := by
      simp [rlProcess, rlStep, rlDecide, RATE_LIMIT_MAX_REQUESTS]
    have hmid := runRL_allows (t0 + RATE_LIMIT_WINDOW) ts 1 hin
      (by rw [hlen]; simp [RATE_LIMIT_MAX_REQUESTS])
    have hlast : rlProcess (some ⟨1 + ts.length, t0 + RATE_LIMIT_WINDOW⟩) tl
        = (⟨1 + ts.length + 1, t0 + RATE_LIMIT_WINDOW⟩,
           .deny ((t0 + RATE_LIMIT_WINDOW - tl + 999) / 1000)) := by
      have hnr : ¬ t0 + RATE_LIMIT_WINDOW < tl := not_lt.mpr h60
      have hover : RATE_LIMIT_MAX_REQUESTS < 1 + ts.length + 1 := by
        rw [hlen]; simp [RATE_LIMIT_MAX_REQUESTS]
      simp [rlProcess, rlStep, rlDecide, hnr, hover]
    constructor
    · simp only [runRL, hfirst, runRL_append, hmid, hlast, runRL]
      rw [hlen]
      rfl
    · have : t0 + RATE_LIMIT_WINDOW - tl ≤ RATE_LIMIT_WINDOW := by omega
      simp only [RATE_LIMIT_WINDOW] at this ⊢
      omega

/-- C5 witness: 101 requests of one client, all at instant 0 — the first
100 admitted, the 101st denied with `retryAfter` = 60 seconds. -/
theorem rate_limiter_window_and_limit_witness :
    (runRL none ((0 : Nat) :: (List.replicate 99 0 ++ [0]))).2
      = List.replicate 100 RLDecision.allow ++ [RLDecision.deny 60] := by
  have h := rate_limiter_window_and_limit.2.2.2 0 0 (List.replicate 99 0)
    (by simp) (by simp) (le_refl 0) (by simp [RATE_LIMIT_WINDOW])
  have h60 : (0 + RATE_LIMIT_WINDOW - 0 + 999) / 1000 = 60 := by
    simp [RATE_LIMIT_WINDOW]
  rw [h60] at h
  exact h.1

/-- When every item before `bad` looks up successfully and `bad` does not,
the validation loop reports exactly `bad.productId`. -/
theorem validateItems_first_failure (lookup : String → Option Product)
    (bad : ReqItem) (rest : List ReqItem) (hbad : lookup bad.productId = none) :
    ∀ good : List ReqItem, (∀ i ∈ good, (lookup i.productId).isSome) →
    validateItems lookup (good ++ bad :: rest) = .error bad.productId := by
  intro good
  induction good with
  | nil => intro _; simp [validateItems, hbad]
  | cons i good ih =>
    intro hgood
    obtain ⟨p, hp⟩ := Option.isSome_iff_exists.mp (hgood i (by simp))
    have hrec := ih (fun j hj => hgood j (by simp [hj]))
    simp [validateItems, hp, hrec]

/-- C2: for a non-empty item list whose first failing lookup is the item
`bad` (everything before it validates), `createOrder` aborts with a 400
whose error body names `bad.productId`, and the database is exactly the
one before the request: no Order row and no OrderItem row is persisted. -/
theorem create_order_first_failure_aborts
    (lookup : String → Option Product) (persistOk : Bool) (db : DB)
    (uid : Nat) (good : List ReqItem) (bad : ReqItem) (rest : List ReqItem)
    (sa : String) (now : Nat)
    (hgood : ∀ i ∈ good, (lookup i.productId).isSome)
    (hbad : lookup bad.productId = none) :
    createOrder lookup persistOk db uid (good ++ bad :: rest) sa now
      = ⟨.invalidProduct bad.productId, db, [.begin, .release]⟩ ∧
    (CreateOutcome.invalidProduct bad.productId).httpStatus = 400 ∧
    (CreateOutcome.invalidProduct bad.productId).errorMsg
      = some ("Invalid product: " ++ bad.productId) := by
  refine ⟨?_, rfl, rfl⟩
  have hne : (good ++ bad :: rest).isEmpty = false := by
    cases good <;> rfl
  have hv := validateItems_first_failure lookup bad rest hbad good hgood
  simp [createOrder, hne, hv]

/-- C2 witness: items `[p1×2, nope×1, p1×3]` against the one-product
catalog — the request aborts naming `nope`, persisting nothing. -/
theorem create_order_first_failure_aborts_witness :
    createOrder lookup0 true db0 7 [⟨"p1", 2⟩, ⟨"nope", 1⟩, ⟨"p1", 3⟩] "a" 5
      = ⟨.invalidProduct "nope", db0, [.begin, .release]⟩ := by
  exact (create_order_first_failure_aborts lookup0 true db0 7
    [⟨"p1", 2⟩] ⟨"nope", 1⟩ [⟨"p1", 3⟩] "a" 5
    (by decide) (by decide)).1

/-- A successful validation run returns the running sum of snapshot price
times quantity, which also equals the same sum over the validated items,
and copies each requested quantity verbatim into its validated item. -/
theorem validateItems_ok (lookup : String → Option Product) :
    ∀ (items : List ReqItem) (t : Int) (vs : List VItem),
    validateItems lookup items = .ok (t, vs) →
    t = snapshotTotal lookup items ∧
    t = (vs.map (fun v => v.price * v.quantity)).sum ∧
    vs.map VItem.quantity = items.map ReqItem.quantity := by
  intro items
  induction items with
  | nil =>
    intro t vs h
    simp only [validateItems, Except.ok.injEq, Prod.mk.injEq] at h
    obtain ⟨ht, hvs⟩ := h
    subst ht; subst hvs
    simp [snapshotTotal]
  | cons item rest ih =>
    intro t vs h
    simp only [validateItems] at h
    cases hp : lookup item.productId with
    | none => rw [hp] at h; exact absurd h (by simp)
    | some p =>
      rw [hp] at h
      cases hrec : validateItems lookup rest with
      | error e => rw [hrec] at h; exact absurd h (by simp)
      | ok tv =>
        obtain ⟨t', vs'⟩ := tv
        rw [hrec] at h
        simp only [Except.ok.injEq, Prod.mk.injEq] at h
        obtain ⟨ht, hvs⟩ := h
        obtain ⟨h1, h2, h3⟩ := ih t' vs' hrec
        subst ht; subst hvs
        refine ⟨?_, ?_, ?_⟩
        · simp [snapshotTotal, hp] at h1 ⊢
          rw [h1]
        · simp [h2]
        · simp [h3]

/-- C3: a successfully created order's `total_amount` is `Σ pᵢ·qᵢ` over
the request items with `pᵢ` the Product Lookup Client's price at
validation time — equivalently, the same sum over the persisted item
rows' snapshot prices — and the status-update and cancel endpoints never
touch `total_amount`, so the total is computed once at creation and never
recomputed. -/
theorem order_total_is_snapshot_sum :
    (∀ (lookup : String → Option Product) (persistOk : Bool) (db : DB)
        (uid : Nat) (items : List ReqItem) (sa : String) (now : Nat)
        (o : Order) (its : List OrderItem),
      (createOrder lookup persistOk db uid items sa now).outcome
          = .created o its →
      o.total_amount = snapshotTotal lookup items ∧
      o.total_amount = (its.map (fun it => it.price * it.quantity)).sum) ∧
    (∀ (db : DB) (uid oid : Nat) (s : String),
      (updateStatusHandler db uid oid s).2.orders.map Order.total_amount
        = db.orders.map Order.total_amount) ∧
    (∀ (db : DB) (uid oid : Nat),
      (cancelHandler db uid oid).2.orders.map Order.total_amount
        = db.orders.map Order.total_amount) := by
  refine ⟨?_, ?_, ?_⟩
  · intro lookup persistOk db uid items sa now o its h
    rw [createOrder] at h
    split at h
    · exact absurd h (by simp)
    · split at h
      · exact absurd h (by simp)
      · rename_i t vs hv
        split at h
        · simp only [CreateOutcome.created.injEq] at h
          obtain ⟨ho, hits⟩ := h
          obtain ⟨h1, h2, _⟩ := validateItems_ok lookup items t vs hv
          subst ho; subst hits
          refine ⟨h1, ?_⟩
          rw [h2, List.map_map]
          congr 1
        · exact absurd h (by simp)
  · intro db uid oid s
    rw [updateStatusHandler]
    split
    · rfl
    · split
      · rfl
      · simp only [List.map_map]
        apply List.map_congr_left
        intro a _
        simp only [Function.comp_apply]
        split <;> rfl
  · intro db uid oid
    rw [cancelHandler]
    split
    · rfl
    · simp only [List.map_map]
      apply List.map_congr_left
      intro a _
      simp only [Function.comp_apply]
      split <;> rfl

/-- C3 witness: the spec's worked example — one item `p1×2` at snapshot
price 50.00 yields `total_amount` 100.00 (10000 minor units). -/
theorem order_total_is_snapshot_sum_witness :
    (Order.mk 1 7 "pending" 10000 "a" 5).total_amount
      = snapshotTotal lookup0 [⟨"p1", 2⟩] := by
  have h := order_total_is_snapshot_sum.1 lookup0 true db0 7 [⟨"p1", 2⟩]
    "a" 5 ⟨1, 7, "pending", 10000, "a", 5⟩ [⟨1, "p1", "Widget", 2, 5000⟩]
    (by decide)
  exact h.1

/-- C4 (amended): the handler opens the transaction at the start of the
request, *before* any validation; the success path closes it with
`COMMIT`, the caught-exception path with `ROLLBACK`, but the early-return
400 paths (empty item list, failed product validation) release the client
with the transaction still open — though those paths have inserted
nothing, so the database is unchanged there. -/
theorem create_order_tx_discipline (lookup : String → Option Product)
    (persistOk : Bool) (db : DB) (uid : Nat) (items : List ReqItem)
    (sa : String) (now : Nat) :
    (createOrder lookup persistOk db uid items sa now).tx.head?
        = some .begin ∧
    ((∃ o its, (createOrder lookup persistOk db uid items sa now).outcome
          = .created o its) →
      (createOrder lookup persistOk db uid items sa now).tx
        = [.begin, .commit, .release]) ∧
    ((createOrder lookup persistOk db uid items sa now).outcome
          = .serverError →
      (createOrder lookup persistOk db uid items sa now).tx
        = [.begin, .rollback, .release]) ∧
    ((createOrder lookup persistOk db uid items sa now).outcome.httpStatus
          = 400 →
      (createOrder lookup persistOk db uid items sa now).tx
          = [.begin, .release] ∧
      (createOrder lookup persistOk db uid items sa now).db = db) := by
  rw [createOrder]
  split
  · exact ⟨rfl, by simp, by simp, fun _ => ⟨rfl, rfl⟩⟩
  · split
    · exact ⟨rfl, by simp, by simp, fun _ => ⟨rfl, rfl⟩⟩
    · split
      · exact ⟨rfl, fun _ => rfl, by simp,
          by simp [CreateOutcome.httpStatus]⟩
      · exact ⟨rfl, by simp, fun _ => rfl,
          by simp [CreateOutcome.httpStatus]⟩

/-- C4 witness: a fully valid single-item request commits and releases. -/
theorem create_order_tx_discipline_witness :
    (createOrder lookup0 true db0 7 [⟨"p1", 2⟩] "a" 5).tx
      = [TxEvent.begin, TxEvent.commit, TxEvent.release] := by
  exact (create_order_tx_discipline lookup0 true db0 7 [⟨"p1", 2⟩] "a" 5).2.1
    ⟨⟨1, 7, "pending", 10000, "a", 5⟩, [⟨1, "p1", "Widget", 2, 5000⟩],
     by decide⟩

/-- C9 (amended): `createOrder` copies each requested quantity into the
persisted OrderItem row verbatim, with no positivity (or any other)
check — zero and negative quantities are persisted exactly as requested —
and the persisted rows of a successful request are appended to the
`order_items` table. -/
theorem created_items_copy_requested_quantities
    (lookup : String → Option Product) (persistOk : Bool) (db : DB)
    (uid : Nat) (items : List ReqItem) (sa : String) (now : Nat)
    (o : Order) (its : List OrderItem)
    (h : (createOrder lookup persistOk db uid items sa now).outcome
        = .created o its) :
    its.map OrderItem.quantity = items.map ReqItem.quantity ∧
    (createOrder lookup persistOk db uid items sa now).db.order_items
      = db.order_items ++ its := by
  rw [createOrder] at h ⊢
  split at h
  · exact absurd h (by simp)
  · rename_i hne
    split at h
    · exact absurd h (by simp)
    · rename_i t vs hv
      split at h
      · rename_i hp
        simp only [CreateOutcome.created.injEq] at h
        obtain ⟨ho, hits⟩ := h
        obtain ⟨_, _, h3⟩ := validateItems_ok lookup items t vs hv
        subst hits
        constructor
        · rw [List.map_map]
          rw [← h3]
          congr 1
        · simp only [if_neg hne, if_pos hp]
      · exact absurd h (by simp)

/-- C9 witness: the quantity-0 request run through the amended theorem —
the single persisted row's quantity is the requested 0. -/
theorem created_items_copy_requested_quantities_witness :
    ([⟨1, "p1", "Widget", 0, 5000⟩] : List OrderItem).map OrderItem.quantity
      = ([⟨"p1", 0⟩] : List ReqItem).map ReqItem.quantity := by
  exact (created_items_copy_requested_quantities lookup0 true db0 7
    [⟨"p1", 0⟩] "a" 5 ⟨1, 7, "pending", 0, "a", 5⟩
    [⟨1, "p1", "Widget", 0, 5000⟩] (by decide)).1

/-- C6: `GET /orders/:id` returns the order exactly when a row with that
id *and* the caller as owner exists; whenever no such row exists — the id
is absent altogether or the order belongs to a different caller alike —
the response is the one fixed 404 value `Order not found`, so the two
failure causes are indistinguishable to the caller. -/
theorem get_order_owned_or_same_not_found (db : DB) (uid oid : Nat) :
    ((∃ ow, getOrderHandler db uid oid = .ok ow) ↔
      ∃ o ∈ db.orders, o.id = oid ∧ o.user_id = uid) ∧
    (¬ (∃ o ∈ db.orders, o.id = oid ∧ o.user_id = uid) →
      getOrderHandler db uid oid = .notFound "Order not found") := by
  constructor
  · constructor
    · rintro ⟨ow, h⟩
      rw [getOrderHandler, getOrderById] at h
      cases hf : db.orders.find?
          (fun o => o.id == oid &&
            (match some uid with | none => true | some u => o.user_id == u)) with
      | none => rw [hf] at h; exact absurd h (by simp)
      | some o =>
        have hp := List.find?_some hf
        have hmem := List.mem_of_find?_eq_some hf
        simp only [Bool.and_eq_true, beq_iff_eq] at hp
        exact ⟨o, hmem, hp.1, hp.2⟩
    · rintro ⟨o, hmem, hid, huid⟩
      have hsome : (db.orders.find?
          (fun o => o.id == oid &&
            (match some uid with | none => true | some u => o.user_id == u))).isSome := by
        apply List.find?_isSome.mpr
        exact ⟨o, hmem, by simp [hid, huid]⟩
      obtain ⟨o', hf⟩ := Option.isSome_iff_exists.mp hsome
      rw [getOrderHandler, getOrderById, hf]
      exact ⟨_, rfl⟩
  · intro hne
    have hnone : db.orders.find?
        (fun o => o.id == oid &&
          (match some uid with | none => true | some u => o.user_id == u)) = none := by
      apply List.find?_eq_none.mpr
      intro x hx hpx
      simp only [Bool.and_eq_true, beq_iff_eq] at hpx
      exact hne ⟨x, hx, hpx.1, hpx.2⟩
    rw [getOrderHandler, getOrderById, hnone]

/-- C6 witness: against the one-order database (order 1 owned by user 7),
user 8 asking for order 1 and user 7 asking for the absent order 2 get
the literally identical 404 response. -/
theorem get_order_owned_or_same_not_found_witness :
    getOrderHandler db1 8 1 = .notFound "Order not found" ∧
    getOrderHandler db1 7 2 = .notFound "Order not found" := by
  exact ⟨(get_order_owned_or_same_not_found db1 8 1).2 (by decide),
         (get_order_owned_or_same_not_found db1 7 2).2 (by decide)⟩

/-- C7: `PATCH /orders/:id/status` answers 400 `Invalid status` exactly
when the requested status is outside the fixed enumeration; for a status
inside it, the conditional update is scoped only by `(id, owner)` — no
check on the current status, so e.g. `delivered → pending` succeeds — and
answers 404 exactly when no row matches `(id, owner)`. -/
theorem update_status_enum_scoped (db : DB) (uid oid : Nat) (s : String) :
    ((updateStatusHandler db uid oid s).1 = .invalidStatus ↔
      s ∉ validStatuses) ∧
    (s ∈ validStatuses →
      ((¬ ∃ o ∈ db.orders, ownedRow oid uid o = true) →
        updateStatusHandler db uid oid s = (.notFound, db)) ∧
      ((∃ o ∈ db.orders, ownedRow oid uid o = true) →
        (∃ ow, (updateStatusHandler db uid oid s).1 = .updated ow) ∧
        ∀ o ∈ (updateStatusHandler db uid oid s).2.orders,
          ownedRow oid uid o = true → o.status = s)) := by
  by_cases hm : s ∈ validStatuses
  · have h1 : validStatuses.contains s = true := List.elem_iff.mpr hm
    have hc : ¬ ((!validStatuses.contains s) = true) := by
      rw [h1]
      simp
    refine ⟨?_, fun _ => ⟨fun hne => ?_, fun hex => ⟨?_, ?_⟩⟩⟩
    · rw [updateStatusHandler, if_neg hc]
      constructor
      · intro h
        split at h <;> exact absurd h (by simp)
      · intro h; exact absurd hm h
    · have hnil : db.orders.filter (ownedRow oid uid) = [] :=
        List.filter_eq_nil_iff.mpr (fun a ha hpa => hne ⟨a, ha, hpa⟩)
      rw [updateStatusHandler, if_neg hc, if_pos]
      rw [hnil]
      rfl
    · obtain ⟨o, hmem, hp⟩ := hex
      have hnem : ¬ (db.orders.filter (ownedRow oid uid)).isEmpty = true := by
        rw [List.isEmpty_iff]
        intro hnil
        exact absurd hp ((List.filter_eq_nil_iff.mp hnil) o hmem)
      rw [updateStatusHandler, if_neg hc, if_neg hnem]
      exact ⟨_, rfl⟩
    · obtain ⟨o, hmem, hp⟩ := hex
      have hnem : ¬ (db.orders.filter (ownedRow oid uid)).isEmpty = true := by
        rw [List.isEmpty_iff]
        intro hnil
        exact absurd hp ((List.filter_eq_nil_iff.mp hnil) o hmem)
      rw [updateStatusHandler, if_neg hc, if_neg hnem]
      intro o' ho' hp'
      obtain ⟨x, hx, hfx⟩ := List.mem_map.mp ho'
      by_cases hox : ownedRow oid uid x = true
      · rw [if_pos hox] at hfx
        subst hfx
        rfl
      · rw [if_neg hox] at hfx
        subst hfx
        exact absurd hp' hox
  · have hc : (!validStatuses.contains s) = true := by
      have h1 : validStatuses.contains s = false := by
        rw [← Bool.not_eq_true]
        intro h
        exact hm (List.elem_iff.mp h)
      rw [h1]
      rfl
    refine ⟨?_, fun hs => absurd hs hm⟩
    rw [updateStatusHandler, if_pos hc]
    exact ⟨fun _ => hm, fun _ => rfl⟩

/-- C7 witness: `delivered → pending` succeeds for the owner, and a bogus
status draws the 400. -/
theorem update_status_enum_scoped_witness :
    (∃ ow, (updateStatusHandler dbDel 7 1 "pending").1 = .updated ow) ∧
    (updateStatusHandler db0 7 1 "bogus").1 = .invalidStatus := by
  refine ⟨(((update_status_enum_scoped dbDel 7 1 "pending").2 (by decide)).2
    (by decide)).1, ?_⟩
  exact (update_status_enum_scoped db0 7 1 "bogus").1.mpr (by decide)

/-- C8: `DELETE /orders/:id` succeeds exactly when a row matches id,
owner, *and* current status in {pending, confirmed}; in every other case
(missing id, foreign owner, or any other status) it returns the single
404 response with the database — hence every status — unchanged; on
success each matching row reappears with status `cancelled` and rows not
matching are carried over unchanged. -/
theorem cancel_only_pending_confirmed (db : DB) (uid oid : Nat) :
    (((cancelHandler db uid oid).1 = .success) ↔
      ∃ o ∈ db.orders, cancellableRow oid uid o = true) ∧
    ((¬ ∃ o ∈ db.orders, cancellableRow oid uid o = true) →
      cancelHandler db uid oid = (.notFound, db)) ∧
    (∀ o ∈ db.orders, cancellableRow oid uid o = true →
      { o with status := "cancelled" } ∈ (cancelHandler db uid oid).2.orders) ∧
    (∀ o ∈ db.orders, ¬ cancellableRow oid uid o = true →
      o ∈ (cancelHandler db uid oid).2.orders) := by
  have hnotfound : (¬ ∃ o ∈ db.orders, cancellableRow oid uid o = true) →
      cancelHandler db uid oid = (.notFound, db) := by
    intro hne
    have hnil : db.orders.filter (cancellableRow oid uid) = [] :=
      List.filter_eq_nil_iff.mpr (fun a ha hpa => hne ⟨a, ha, hpa⟩)
    rw [cancelHandler, if_pos]
    rw [hnil]
    rfl
  have hnem : (∃ o ∈ db.orders, cancellableRow oid uid o = true) →
      ¬ (db.orders.filter (cancellableRow oid uid)).isEmpty = true := by
    rintro ⟨o, hmem, hp⟩
    rw [List.isEmpty_iff]
    intro hnil
    exact absurd hp ((List.filter_eq_nil_iff.mp hnil) o hmem)
  refine ⟨⟨?_, ?_⟩, hnotfound, ?_, ?_⟩
  · intro h
    by_cases hex : ∃ o ∈ db.orders, cancellableRow oid uid o = true
    · exact hex
    · rw [hnotfound hex] at h
      exact absurd h (by simp)
  · intro hex
    rw [cancelHandler, if_neg (hnem hex)]
  · intro o hmem hp
    have hex : ∃ o ∈ db.orders, cancellableRow oid uid o = true :=
      ⟨o, hmem, hp⟩
    rw [cancelHandler, if_neg (hnem hex)]
    exact List.mem_map.mpr ⟨o, hmem, by rw [if_pos hp]⟩
  · intro o hmem hp
    by_cases hex : ∃ o ∈ db.orders, cancellableRow oid uid o = true
    · rw [cancelHandler, if_neg (hnem hex)]
      exact List.mem_map.mpr ⟨o, hmem, by rw [if_neg hp]⟩
    · rw [hnotfound hex]
      exact hmem

/-- C8 witness: the shipped order cannot be cancelled (404, database
untouched) while the confirmed one can. -/
theorem cancel_only_pending_confirmed_witness :
    cancelHandler dbShip 7 1 = (.notFound, dbShip) ∧
    (cancelHandler dbConf 7 1).1 = .success := by
  refine ⟨(cancel_only_pending_confirmed dbShip 7 1).2.1 (by decide), ?_⟩
  exact (cancel_only_pending_confirmed dbConf 7 1).1.mpr
    ⟨⟨1, 7, "confirmed", 5000, "a", 0⟩, by decide, by decide⟩

/-- C10: the `pagination.total` field of `GET /orders` is
`result.rows.length` — the number of rows on the returned page, bounded
by `limit` — and not the caller's overall matching count: in the
two-order database `db2` a query with limit 1 reports `total = 1` while
the caller's matching orders number 2. -/
theorem list_orders_total_counts_page_only :
    (∀ (db : DB) (uid page limit : Nat) (status : Option String),
      (listOrders db uid page limit status).2.total
        = (listOrders db uid page limit status).1.length ∧
      (listOrders db uid page limit status).2.total ≤ limit) ∧
    (listOrders db2 7 1 1 none).2.total = 1 ∧
    (db2.orders.filter (fun o => o.user_id == 7)).length = 2 := by
  refine ⟨fun db uid page limit status => ⟨?_, ?_⟩, by decide, by decide⟩
  · rw [listOrders]
    simp [List.length_map]
  · rw [listOrders]
    simp only []
    simp [List.length_take]
